import Mathlib

/-!
Verification development for the Inferno AoIP monitoring agent
(`config/monitor-api.py`).

The Python source is shallowly embedded:

* a text line is a `String` (internally a `List Char`);
* a log file is a `LogFile`: `missing` (the `Path.exists` guard fails),
  `unreadable` (opening/reading raises, caught by the `except` branch),
  or `content lines` (the list of lines returned by `readlines()`);
* the process-wide Prometheus registry is an explicit `Metrics` record
  threaded through every function that touches it;
* the specific regular expressions used by the source
  (`offset[:\s]+(-?\d+)`, `(\d+)\s*channels?`, `(\d+)\s*hz`,
  `received[:\s]+(\d+)`, `lost[:\s]+(\d+)`, `(srt://[^\s\x27"]+)`,
  `(\d+\.?\d*)\s*kbits?/s`, `(\d+\.?\d*)%`) are implemented as
  character-level matchers with `re.search`'s leftmost-scan semantics:
  these particular patterns concatenate pairwise-disjoint character
  classes, so greedy matching without backtracking is exact;
* Python floats carry only exact decimals here and are modelled as `ℚ`;
  Python ints are `Int` (or `ℕ` where the regex only yields digits).
-/

/-! ## Character-level helpers -/

/-- Python's `\s` class (ASCII part), also used by `str.strip()`. -/
def isPySpace (c : Char) : Bool :=
  c = ' ' || c = '\t' || c = '\n' || c = '\r' || c = '\x0b' || c = '\x0c'

/-- Python's `\d` class (ASCII digits). -/
def isDigitC (c : Char) : Bool :=
  48 ≤ c.toNat && c.toNat ≤ 57

/-- The `[:\s]` class of the `offset`/`received`/`lost` patterns. -/
def sepClass (c : Char) : Bool :=
  c = ':' || isPySpace c

/-- Test `hasPref p l` : `l` starts with the literal `p`. -/
def hasPref : List Char → List Char → Bool
  | [], _ => true
  | _ :: _, [] => false
  | p :: ps, c :: cs => p == c && hasPref ps cs

/-- Python's substring test `pat in l`. -/
def containsPat (pat : List Char) : List Char → Bool
  | [] => pat.isEmpty
  | c :: rest => hasPref pat (c :: rest) || containsPat pat rest

/-- Python `str.lower()` (ASCII). -/
def lowerL (l : List Char) : List Char := l.map Char.toLower

/-- Decimal value of a digit character. -/
def digitVal (c : Char) : ℕ := c.toNat - 48

/-- Value of a most-significant-first digit string (what `int()` computes
on an all-digit string). -/
def digitsToNat (ds : List Char) : ℕ :=
  ds.foldl (fun a c => 10 * a + digitVal c) 0

/-! ## The individual regex matchers

Each `...At` function tries the pattern anchored at the head of the list;
each `search...` function scans start positions left to right, exactly as
`re.search` does. -/

/-- Pattern `offset[:\s]+(-?\d+)` anchored at the head; returns the signed capture. -/
def offsetAt (l : List Char) : Option Int :=
  match l with
  | 'o' :: 'f' :: 'f' :: 's' :: 'e' :: 't' :: c :: r2 =>
    if sepClass c then
      let r3 := r2.dropWhile sepClass
      match r3 with
      | '-' :: r4 =>
        let ds := r4.takeWhile isDigitC
        if ds.isEmpty then none else some (-(digitsToNat ds : Int))
      | _ =>
        let ds := r3.takeWhile isDigitC
        if ds.isEmpty then none else some ((digitsToNat ds : Int))
    else none
  | _ => none

def searchOffset : List Char → Option Int
  | [] => none
  | c :: rest =>
    match offsetAt (c :: rest) with
    | some v => some v
    | none => searchOffset rest

/-- Pattern `(\d+)\s*channels?` anchored at the head; returns the numeric capture. -/
def chanAt (l : List Char) : Option ℕ :=
  let ds := l.takeWhile isDigitC
  if ds.isEmpty then none
  else
    match (l.dropWhile isDigitC).dropWhile isPySpace with
    | 'c' :: 'h' :: 'a' :: 'n' :: 'n' :: 'e' :: 'l' :: _ => some (digitsToNat ds)
    | _ => none

def searchChan : List Char → Option ℕ
  | [] => none
  | c :: rest =>
    match chanAt (c :: rest) with
    | some v => some v
    | none => searchChan rest

/-- Pattern `(\d+)\s*hz` anchored at the head (run on the lowered line: the source
compiles this pattern with `re.IGNORECASE`). -/
def hzAt (l : List Char) : Option ℕ :=
  let ds := l.takeWhile isDigitC
  if ds.isEmpty then none
  else
    match (l.dropWhile isDigitC).dropWhile isPySpace with
    | 'h' :: 'z' :: _ => some (digitsToNat ds)
    | _ => none

def searchHz : List Char → Option ℕ
  | [] => none
  | c :: rest =>
    match hzAt (c :: rest) with
    | some v => some v
    | none => searchHz rest

/-- Pattern `[:\s]+(\d+)` : the common tail of the `received`/`lost` patterns. -/
def sepThenNat (r1 : List Char) : Option ℕ :=
  match r1 with
  | c :: r2 =>
    if sepClass c then
      let ds := (r2.dropWhile sepClass).takeWhile isDigitC
      if ds.isEmpty then none else some (digitsToNat ds)
    else none
  | [] => none

/-- Pattern `received[:\s]+(\d+)` anchored at the head (run on the lowered line). -/
def recvAt (l : List Char) : Option ℕ :=
  match l with
  | 'r' :: 'e' :: 'c' :: 'e' :: 'i' :: 'v' :: 'e' :: 'd' :: r1 => sepThenNat r1
  | _ => none

def searchRecv : List Char → Option ℕ
  | [] => none
  | c :: rest =>
    match recvAt (c :: rest) with
    | some v => some v
    | none => searchRecv rest

/-- Pattern `lost[:\s]+(\d+)` anchored at the head (run on the lowered line). -/
def lostAt (l : List Char) : Option ℕ :=
  match l with
  | 'l' :: 'o' :: 's' :: 't' :: r1 => sepThenNat r1
  | _ => none

def searchLost : List Char → Option ℕ
  | [] => none
  | c :: rest =>
    match lostAt (c :: rest) with
    | some v => some v
    | none => searchLost rest

/-- The `[^\s\x27"]` class of the SRT destination pattern
(any char except whitespace, single quote (code 39) and double quote). -/
def uriChar (c : Char) : Bool :=
  !(isPySpace c) && c.toNat != 39 && c != '"'

/-- The literal `srt://`. -/
def srtPat : List Char := ['s', 'r', 't', ':', '/', '/']

/-- Pattern `(srt://[^\s\x27"]+)` anchored at the head; the capture is the whole
match (scheme plus a nonempty greedy run). -/
def uriAt (l : List Char) : Option String :=
  if hasPref srtPat l then
    let run := (l.drop 6).takeWhile uriChar
    if run.isEmpty then none else some ⟨srtPat ++ run⟩
  else none

def searchUri : List Char → Option String
  | [] => none
  | c :: rest =>
    match uriAt (c :: rest) with
    | some v => some v
    | none => searchUri rest

/-- Pattern `\d+\.?\d*` anchored at the head: Python's `float()` of the capture
(an exact decimal, modelled in `ℚ`), together with the rest of the input
after the capture. -/
def decAt (l : List Char) : Option (ℚ × List Char) :=
  let ds := l.takeWhile isDigitC
  if ds.isEmpty then none
  else
    let r1 := l.dropWhile isDigitC
    match r1 with
    | '.' :: r2 =>
      let fs := r2.takeWhile isDigitC
      some ((digitsToNat ds : ℚ) + (digitsToNat fs : ℚ) / (10 : ℚ) ^ fs.length,
            r2.dropWhile isDigitC)
    | _ => some ((digitsToNat ds : ℚ), r1)

/-- Pattern `(\d+\.?\d*)\s*kbits?/s` anchored at the head (run on the lowered
line: the source compiles this pattern with `re.IGNORECASE`). -/
def kbitsAt (l : List Char) : Option ℚ :=
  match decAt l with
  | some (q, r1) =>
    match r1.dropWhile isPySpace with
    | 'k' :: 'b' :: 'i' :: 't' :: 's' :: '/' :: 's' :: _ => some q
    | 'k' :: 'b' :: 'i' :: 't' :: '/' :: 's' :: _ => some q
    | _ => none
  | none => none

def searchKbits : List Char → Option ℚ
  | [] => none
  | c :: rest =>
    match kbitsAt (c :: rest) with
    | some v => some v
    | none => searchKbits rest

/-- Pattern `(\d+\.?\d*)%` anchored at the head. -/
def pctAt (l : List Char) : Option ℚ :=
  match decAt l with
  | some (q, r1) =>
    match r1 with
    | '%' :: _ => some q
    | _ => none
  | none => none

def searchPct : List Char → Option ℚ
  | [] => none
  | c :: rest =>
    match pctAt (c :: rest) with
    | some v => some v
    | none => searchPct rest

/-! ## Data model (the dict literals of the three parsers) -/

/-- The `ptp_status` dict of `parse_statime_log`. -/
structure PtpStatus where
  synchronized : Bool
  clock_offset_ns : Int
  master_ip : Option String
  state : String
deriving DecidableEq, Repr

def ptpDefault : PtpStatus :=
  { synchronized := false, clock_offset_ns := 0, master_ip := none, state := "unknown" }

/-- The `audio_status` dict of `parse_inferno_log`. -/
structure AudioStatus where
  rx_channels : ℕ
  tx_channels : ℕ
  sample_rate : ℕ
  packets_received : ℕ
  packets_lost : ℕ
deriving DecidableEq, Repr

def audioDefault : AudioStatus :=
  { rx_channels := 0, tx_channels := 0, sample_rate := 0,
    packets_received := 0, packets_lost := 0 }

/-- The `srt_status` dict of `parse_srt_log`. -/
structure SrtStatus where
  connected : Bool
  destination : Option String
  bitrate_kbps : ℚ
  rtt_ms : ℚ
  packet_loss_pct : ℚ
deriving DecidableEq, Repr

def srtDefault : SrtStatus :=
  { connected := false, destination := none, bitrate_kbps := 0,
    rtt_ms := 0, packet_loss_pct := 0 }

/-- The process-wide Prometheus registry, restricted to the series this
development reasons about.  Labelled families (`service` label) are
functions from the label value. -/
structure Metrics where
  service_up : String → ℕ
  service_restarts : String → ℕ
  ptp_clock_offset : Int
  ptp_synchronized : ℕ
  srt_connected : ℕ
  srt_bitrate : ℚ
  srt_rtt : ℚ
  srt_packet_loss : ℚ
  packet_loss_rate : ℚ

/-- The registry at process start (gauges and counters all zero). -/
def initMetrics : Metrics :=
  { service_up := fun _ => 0, service_restarts := fun _ => 0,
    ptp_clock_offset := 0, ptp_synchronized := 0,
    srt_connected := 0, srt_bitrate := 0, srt_rtt := 0,
    srt_packet_loss := 0, packet_loss_rate := 0 }

/-- A log file as a parser sees it: absent (`Path.exists` is false),
unreadable (`open`/`readlines` raises and the `except` branch runs), or a
list of lines. -/
inductive LogFile where
  | missing
  | unreadable
  | content (lines : List String)

/-- Python `lines[-100:]`. -/
def last100 (l : List String) : List String := l.drop (l.length - 100)

/-! ## parse_statime_log -/

def offTrig : List Char := "offset".data
def stateTrig : List Char := "state".data
def slaveTrig : List Char := "slave".data
def listenTrig : List Char := "listening".data
def masterTrig : List Char := "master".data

/-- One iteration of the `for line in reversed(lines)` loop of
`parse_statime_log`: the offset block commits offset and the derived
synchronized flag, pushes both PTP gauges, and `break`s; otherwise the
state block may rewrite `state` and the loop continues. -/
def statimeScan : List String → PtpStatus → Metrics → PtpStatus × Metrics
  | [], s, m => (s, m)
  | line :: rest, s, m =>
    let low := lowerL line.data
    match (if containsPat offTrig low then searchOffset line.data else none) with
    | some off =>
      let s2 := { s with clock_offset_ns := off,
                         synchronized := decide (off.natAbs < 100000) }
      let m2 := { m with ptp_clock_offset := off,
                         ptp_synchronized := if s2.synchronized then 1 else 0 }
      (s2, m2)
    | none =>
      let s2 :=
        if containsPat stateTrig low then
          if containsPat slaveTrig low || containsPat listenTrig low then
            { s with state := "slave" }
          else if containsPat masterTrig low then
            { s with state := "master" }
          else s
        else s
      statimeScan rest s2 m

def parse_statime_log (f : LogFile) (m : Metrics) : PtpStatus × Metrics :=
  match f with
  | .missing => (ptpDefault, m)
  | .unreadable => (ptpDefault, m)
  | .content lines => statimeScan ((last100 lines).reverse) ptpDefault m

/-! ## parse_inferno_log -/

def chansTrig : List Char := "channels".data
def srTrig : List Char := "sample rate".data
def hzTrig : List Char := "hz".data
def pktTrig : List Char := "packets".data

/-- One iteration of the `for line in reversed(lines)` loop of
`parse_inferno_log`: three independent trigger blocks, each overwriting
its field on every successful extraction; the loop never breaks. -/
def infernoLine (line : String) (s : AudioStatus) : AudioStatus :=
  let low := lowerL line.data
  let s1 :=
    if containsPat chansTrig low then
      match searchChan line.data with
      | some n => { s with rx_channels := n }
      | none => s
    else s
  let s2 :=
    if containsPat srTrig low || containsPat hzTrig low then
      match searchHz low with
      | some n => { s1 with sample_rate := n }
      | none => s1
    else s1
  if containsPat pktTrig low then
    let s3 :=
      match searchRecv low with
      | some n => { s2 with packets_received := n }
      | none => s2
    match searchLost low with
    | some n => { s3 with packets_lost := n }
    | none => s3
  else s2

def parse_inferno_log (f : LogFile) (m : Metrics) : AudioStatus × Metrics :=
  match f with
  | .missing => (audioDefault, m)
  | .unreadable => (audioDefault, m)
  | .content lines =>
    (((last100 lines).reverse).foldl (fun st l => infernoLine l st) audioDefault, m)

/-! ## parse_srt_log -/

def bitrateTrig : List Char := "bitrate".data
def kbitsTrig : List Char := "kbits/s".data
def lossTrig : List Char := "loss".data
def errTok : List Char := "error".data
def failTok : List Char := "failed".data

/-- The SRT-connection block of one loop iteration: on a URI match it
overwrites the destination and derives `connected` from this line alone. -/
def srtConnStep (line : String) (s : SrtStatus) : SrtStatus :=
  let low := lowerL line.data
  if containsPat srtPat low then
    match searchUri line.data with
    | some u =>
      { s with destination := some u,
               connected := !containsPat errTok low && !containsPat failTok low }
    | none => s
  else s

/-- The bitrate block of one loop iteration. -/
def srtBitrateStep (line : String) (s : SrtStatus) : SrtStatus :=
  let low := lowerL line.data
  if containsPat bitrateTrig low || containsPat kbitsTrig low then
    match searchKbits low with
    | some q => { s with bitrate_kbps := q }
    | none => s
  else s

/-- The packet-loss block of one loop iteration. -/
def srtLossStep (line : String) (s : SrtStatus) : SrtStatus :=
  let low := lowerL line.data
  if containsPat lossTrig low then
    match searchPct line.data with
    | some q => { s with packet_loss_pct := q }
    | none => s
  else s

/-- One full iteration of the `for line in reversed(lines)` loop of
`parse_srt_log`; the loop never breaks. -/
def srtLine (line : String) (s : SrtStatus) : SrtStatus :=
  srtLossStep line (srtBitrateStep line (srtConnStep line s))

def parse_srt_log (f : LogFile) (m : Metrics) : SrtStatus × Metrics :=
  match f with
  | .missing => (srtDefault, m)
  | .unreadable => (srtDefault, m)
  | .content lines =>
    let s := ((last100 lines).reverse).foldl (fun st l => srtLine l st) srtDefault
    (s, { m with srt_connected := if s.connected then 1 else 0,
                 srt_bitrate := s.bitrate_kbps,
                 srt_rtt := s.rtt_ms,
                 srt_packet_loss := s.packet_loss_pct })

/-! ## Service prober and the /status/services view

`systemctl` results are external inputs: `probe name` is whether
`systemctl is-active` printed `active` (any exception maps to `false`,
exactly as the `except` branch does), and `restarts name` is the
`NRestarts` value of `get_service_restart_count` (0 on any failure). -/

def check_service_status (name : String) (probe : String → Bool) (m : Metrics) :
    Bool × Metrics :=
  let is_active := probe name
  (is_active,
   { m with service_up := fun s =>
       if s = name then (if is_active then 1 else 0) else m.service_up s })

/-- One entry of the `services` dict built by `get_services_status`. -/
structure ServiceEntry where
  running : Bool
  restart_count : ℕ
  status : String
deriving DecidableEq, Repr

/-- One iteration of the `for service in [...]` loop of
`get_services_status`: probe the service (which sets its `service_up`
gauge), read its restart count into the JSON entry, and run
`service_restarts.labels(service=...).inc(0)` on the counter. -/
def serviceStep (probe : String → Bool) (restarts : String → ℕ)
    (acc : List (String × ServiceEntry) × Metrics) (svc : String) :
    List (String × ServiceEntry) × Metrics :=
  let r := check_service_status svc probe acc.2
  let is_running := r.1
  let restart_count := restarts svc
  let m2 := { r.2 with service_restarts := fun t =>
                if t = svc then r.2.service_restarts svc + 0
                else r.2.service_restarts t }
  (acc.1 ++ [(svc, { running := is_running, restart_count := restart_count,
                     status := if is_running then "active" else "inactive" })],
   m2)

/-- The `/status/services` handler. -/
def get_services_status (probe : String → Bool) (restarts : String → ℕ)
    (m : Metrics) : List (String × ServiceEntry) × Metrics :=
  (["statime", "inferno", "inferno-srt"]).foldl (serviceStep probe restarts) ([], m)

/-! ## /network/status -/

/-- The loss-rate computation of `get_network_status`:
`packets_lost / total if total > 0 else 0.0`. -/
def lossRate (received lost : ℕ) : ℚ :=
  if received + lost > 0 then (lost : ℚ) / ((received + lost : ℕ) : ℚ) else 0

/-- The `/network/status` handler restricted to its packet fields: parses
the inferno log, derives the loss rate, and pushes the
`packet_loss_rate` gauge. -/
def get_network_status (f : LogFile) (m : Metrics) : ℕ × ℕ × ℚ × Metrics :=
  let a := (parse_inferno_log f m).1
  let loss_rate := lossRate a.packets_received a.packets_lost
  (a.packets_received, a.packets_lost, loss_rate,
   { m with packet_loss_rate := loss_rate })

/-! ## Audio-output routing config

The persisted `audio-output.conf` file is a list of raw lines (each
written with its trailing newline, as `f.write` does). -/

/-- The config dict of `read_audio_output_config` /
`write_audio_output_config` (Python ints). -/
structure RoutingConfig where
  enabled : Bool
  device : String
  stereo_pair : Int
  channel_l : Int
  channel_r : Int
  rx_channels : Int
deriving DecidableEq, Repr

def routingDefault : RoutingConfig :=
  { enabled := false, device := "auto", stereo_pair := 1,
    channel_l := 0, channel_r := 1, rx_channels := 2 }

/-- Python `str.strip()` (no argument: strips whitespace from both ends). -/
def pyStrip (l : List Char) : List Char :=
  (((l.dropWhile isPySpace).reverse.dropWhile isPySpace)).reverse

/-- Python `str.strip('"')`. -/
def stripQ (l : List Char) : List Char :=
  (((l.dropWhile (fun c => c == '"')).reverse.dropWhile (fun c => c == '"'))).reverse

/-- Python `line.split('=')[1]`: the text between the first `'='` and the
second `'='` or the end.  (The callers only reach this after a
`startswith` check that guarantees a first `'='` exists, so index 1 is
in range.) -/
def afterEq (l : List Char) : List Char :=
  ((l.dropWhile (fun c => c != '=')).drop 1).takeWhile (fun c => c != '=')

/-- Decimal printing of a natural, least-significant digit first. -/
def natToRev (n : ℕ) : List Char :=
  if h : n < 10 then [Char.ofNat (48 + n)]
  else Char.ofNat (48 + n % 10) :: natToRev (n / 10)
decreasing_by exact Nat.div_lt_self (by omega) (by omega)

/-- Python `str(n)` for a natural number. -/
def natToStrL (n : ℕ) : List Char := (natToRev n).reverse

/-- Python `str(n)` for an int. -/
def intToStrL (n : Int) : List Char :=
  if n < 0 then '-' :: natToStrL n.natAbs else natToStrL n.toNat

/-- Python `int(s)` on the value strings this system itself writes:
an optional minus sign followed by a nonempty digit string; anything
else raises (returns `none` here). -/
def strToNatD (l : List Char) : Option ℕ :=
  if l.isEmpty then none
  else if l.all isDigitC then some (digitsToNat l) else none

def strToInt (l : List Char) : Option Int :=
  match l with
  | c :: rest =>
    if c == '-' then (strToNatD rest).map (fun k : ℕ => -(k : Int))
    else (strToNatD (c :: rest)).map (fun k : ℕ => (k : Int))
  | [] => none

def enabledKey : List Char := "ENABLED=".data
def deviceKey : List Char := "DEVICE=".data
def spKey : List Char := "STEREO_PAIR=".data
def clKey : List Char := "CHANNEL_L=".data
def crKey : List Char := "CHANNEL_R=".data
def rxKey : List Char := "RX_CHANNELS=".data

/-- One `KEY="value"` line as `f.write(f'KEY="{v}"\n')` produces it
(`key` already carries the `=`). -/
def kvLine (key v : List Char) : List Char := key ++ '"' :: (v ++ ['"', '\n'])

/-- One iteration of the read loop: `none` models the `int()` call
raising `ValueError`, which aborts the loop via the outer `except`. -/
def processLine (line : List Char) (c : RoutingConfig) : Option RoutingConfig :=
  let l := pyStrip line
  if hasPref enabledKey l then
    some { c with enabled := lowerL (stripQ (afterEq l)) == "true".data }
  else if hasPref deviceKey l then
    some { c with device := ⟨stripQ (afterEq l)⟩ }
  else if hasPref spKey l then
    match strToInt (stripQ (afterEq l)) with
    | some n => some { c with stereo_pair := n }
    | none => none
  else if hasPref clKey l then
    match strToInt (stripQ (afterEq l)) with
    | some n => some { c with channel_l := n }
    | none => none
  else if hasPref crKey l then
    match strToInt (stripQ (afterEq l)) with
    | some n => some { c with channel_r := n }
    | none => none
  else if hasPref rxKey l then
    match strToInt (stripQ (afterEq l)) with
    | some n => some { c with rx_channels := n }
    | none => none
  else some c

/-- The read loop; on an exception the config mutated so far is returned
(the `except` branch prints and falls through to `return config`). -/
def readLoop : List (List Char) → RoutingConfig → RoutingConfig
  | [], c => c
  | line :: rest, c =>
    match processLine line c with
    | some c2 => readLoop rest c2
    | none => c

def read_audio_output_config : Option (List (List Char)) → RoutingConfig
  | none => routingDefault
  | some lines => readLoop lines routingDefault

/-- The fields `write_audio_output_config` receives from its callers. -/
structure WriteCfg where
  enabled : Bool
  device : String
  stereo_pair : Int
  rx_channels : Int

/-- The exact file content `write_audio_output_config` produces:
channel numbers are derived from the stereo pair, and the enabled flag
is written as `str(bool).lower()`. -/
def write_audio_output_config (c : WriteCfg) : List (List Char) :=
  let channel_l := (c.stereo_pair - 1) * 2
  let channel_r := (c.stereo_pair - 1) * 2 + 1
  [ "# Hardware audio output configuration\n".data,
    "# This file can be modified via API or manually\n".data,
    kvLine enabledKey (if c.enabled then "true".data else "false".data),
    kvLine deviceKey c.device.data,
    kvLine spKey (intToStrL c.stereo_pair),
    kvLine clKey (intToStrL channel_l),
    kvLine crKey (intToStrL channel_r),
    kvLine rxKey (intToStrL c.rx_channels) ]

/-! ## POST /audio/output -/

/-- The request body model (`AudioOutputConfig`). -/
structure AudioOutputReq where
  enabled : Bool
  device : String
  stereo_pair : Int

inductive ApiResult where
  | ok
  | badRequest (detail : String)
  | serverError (detail : String)
deriving DecidableEq

def ApiResult.is400 : ApiResult → Bool
  | .badRequest _ => true
  | _ => false

/-- Observable effects of one `set_audio_output` call. -/
structure SetOutcome where
  result : ApiResult
  writeAttempted : Bool
  written : Option (List (List Char))
  serviceCmd : Option String
deriving DecidableEq

/-- The `POST /audio/output` handler.  `rx_channels` is the live value
from the main config store; `writeOk` is whether the file write
succeeds; `ctlOk` is whether the `systemctl` invocation succeeds within
its timeout. -/
def set_audio_output (req : AudioOutputReq) (rx_channels : ℕ)
    (writeOk ctlOk : Bool) : SetOutcome :=
  if !(["hdmi", "headphones", "auto"].contains req.device) then
    { result := .badRequest "Device must be hdmi, headphones, or auto",
      writeAttempted := false, written := none, serviceCmd := none }
  else if req.stereo_pair < 1 then
    { result := .badRequest "Stereo pair must be at least 1",
      writeAttempted := false, written := none, serviceCmd := none }
  else
    let max_pairs : ℕ := (rx_channels + 1) / 2
    if req.stereo_pair > (max_pairs : Int) then
      { result := .badRequest "Stereo pair exceeds available pairs",
        writeAttempted := false, written := none, serviceCmd := none }
    else if !writeOk then
      { result := .serverError "Failed to write configuration",
        writeAttempted := true, written := none, serviceCmd := none }
    else
      let file := write_audio_output_config
        { enabled := req.enabled, device := req.device,
          stereo_pair := req.stereo_pair, rx_channels := (rx_channels : Int) }
      let cmd := if req.enabled then "restart" else "stop"
      if ctlOk then
        { result := .ok, writeAttempted := true, written := some file,
          serviceCmd := some cmd }
      else
        { result := .serverError "Failed to control service",
          writeAttempted := true, written := some file, serviceCmd := some cmd }

/-! ## Supporting lemmas -/

/-- The record a statime scan returns does not depend on the metrics
state it is given. -/
theorem statimeScan_fst_indep (ls : List String) (s : PtpStatus) (m m' : Metrics) :
    (statimeScan ls s m).1 = (statimeScan ls s m').1 := by
  induction ls generalizing s with
  | nil => rfl
  | cons line rest ih =>
    rw [statimeScan, statimeScan]
    cases hc : (if containsPat offTrig (lowerL line.data) then searchOffset line.data
                else none) with
    | some off => rfl
    | none => exact ih _

theorem srtConnStep_rtt (line : String) (s : SrtStatus) :
    (srtConnStep line s).rtt_ms = s.rtt_ms := by
  unfold srtConnStep
  dsimp only
  repeat' split
  all_goals rfl

theorem srtBitrateStep_rtt (line : String) (s : SrtStatus) :
    (srtBitrateStep line s).rtt_ms = s.rtt_ms := by
  unfold srtBitrateStep
  dsimp only
  repeat' split
  all_goals rfl

theorem srtLossStep_rtt (line : String) (s : SrtStatus) :
    (srtLossStep line s).rtt_ms = s.rtt_ms := by
  unfold srtLossStep
  dsimp only
  repeat' split
  all_goals rfl

theorem srtLine_rtt (line : String) (s : SrtStatus) :
    (srtLine line s).rtt_ms = s.rtt_ms := by
  unfold srtLine
  rw [srtLossStep_rtt, srtBitrateStep_rtt, srtConnStep_rtt]

theorem foldl_srtLine_rtt (ls : List String) (s : SrtStatus) :
    (ls.foldl (fun st l => srtLine l st) s).rtt_ms = s.rtt_ms := by
  induction ls generalizing s with
  | nil => rfl
  | cons l rest ih => rw [List.foldl_cons, ih, srtLine_rtt]

/-! ## Claims -/

/-- Claim C5: on a missing log file or a failed read, each of the three
log-tail parsers returns its all-defaults record (and, being a total
function, cannot fail the containing request). -/
theorem C5_missing_log_defaults :
    ∀ m : Metrics,
      (parse_statime_log .missing m).1 = ptpDefault ∧
      (parse_statime_log .unreadable m).1 = ptpDefault ∧
      (parse_inferno_log .missing m).1 = audioDefault ∧
      (parse_inferno_log .unreadable m).1 = audioDefault ∧
      (parse_srt_log .missing m).1 = srtDefault ∧
      (parse_srt_log .unreadable m).1 = srtDefault := by
  intro m
  exact ⟨rfl, rfl, rfl, rfl, rfl, rfl⟩

/-- Claim C9: each parser's returned record is a function of the log
content alone — it does not depend on the metrics state (the only
process-wide mutable state), and re-running a parser on unchanged
content, including after its own metrics push, returns the identical
record. -/
theorem C9_parsers_deterministic :
    ∀ (f : LogFile) (m m' : Metrics),
      (parse_statime_log f m).1 = (parse_statime_log f m').1 ∧
      (parse_inferno_log f m).1 = (parse_inferno_log f m').1 ∧
      (parse_srt_log f m).1 = (parse_srt_log f m').1 ∧
      (parse_statime_log f (parse_statime_log f m).2).1 = (parse_statime_log f m).1 ∧
      (parse_inferno_log f (parse_inferno_log f m).2).1 = (parse_inferno_log f m).1 ∧
      (parse_srt_log f (parse_srt_log f m).2).1 = (parse_srt_log f m).1 := by
  intro f m m'
  refine ⟨?_, ?_, ?_, ?_, ?_, ?_⟩ <;>
    cases f <;>
      first
        | rfl
        | exact statimeScan_fst_indep _ _ _ _

/-- Claim C3 counterexample: with packets_received = 5 and
packets_lost = 0 the loss rate is 0.0 although the two counts are not
both zero, so "equals 0.0 exactly when both counts are zero" fails. -/
theorem C3_loss_rate_counterexample :
    lossRate 5 0 = 0 ∧ (5 : ℕ) ≠ 0 := by
  constructor
  · norm_num [lossRate]
  · decide

/-- Claim C3 (amended): for all non-negative packet counts the loss rate
is `lost / (received + lost)` when the denominator is nonzero and `0.0`
otherwise; it always lies in `[0, 1]` and is `0.0` exactly when
`packets_lost = 0`. -/
theorem C3_loss_rate_amended :
    ∀ received lost : ℕ,
      0 ≤ lossRate received lost ∧ lossRate received lost ≤ 1 ∧
      (lossRate received lost = 0 ↔ lost = 0) := by
  intro r l
  unfold lossRate
  split
  case isTrue h =>
    have hpos : (0 : ℚ) < ((r + l : ℕ) : ℚ) := by exact_mod_cast h
    refine ⟨div_nonneg (by positivity) hpos.le, ?_, ?_⟩
    · rw [div_le_one hpos]
      exact_mod_cast Nat.le_add_left l r
    · rw [div_eq_zero_iff]
      constructor
      · rintro (h0 | h0)
        · exact_mod_cast h0
        · exact absurd h0 hpos.ne'
      · intro h0
        left
        exact_mod_cast h0
  case isFalse h =>
    have hl : l = 0 := by omega
    simp [hl]

/-- Claim C1: evaluation of the parsers at a failing input.  With two
candidate lines for the same field, `parse_inferno_log` and
`parse_srt_log` return the value of the chronologically OLDEST line
(each match overwrites the previous one while scanning most-recent
first), contradicting the claim; only `parse_statime_log`'s clock
offset `break`s on its first (most recent) hit as the claim states. -/
theorem C1_reverse_scan_oldest_match_wins :
    (parse_inferno_log
        (.content ["detected 4 channels\n", "detected 8 channels\n"])
        initMetrics).1.rx_channels = 4 ∧
    (parse_srt_log
        (.content ["bitrate: 100 kbits/s\n", "bitrate: 200 kbits/s\n"])
        initMetrics).1.bitrate_kbps = 100 ∧
    (parse_statime_log
        (.content ["offset: 50\n", "offset: 7\n"])
        initMetrics).1.clock_offset_ns = 7 := by
  refine ⟨?_, ?_, ?_⟩ <;> decide

/-- Claim C10: `parse_srt_log` has no extraction rule for round-trip
time, so the returned record's `rtt_ms` always equals its zero default,
and the `srt_rtt` gauge (zero at process start) is only ever set to that
zero value. -/
theorem C10_rtt_always_zero :
    ∀ (f : LogFile) (m : Metrics),
      (parse_srt_log f m).1.rtt_ms = 0 ∧
      (m.srt_rtt = 0 → (parse_srt_log f m).2.srt_rtt = 0) := by
  intro f m
  cases f with
  | missing => exact ⟨rfl, fun h => h⟩
  | unreadable => exact ⟨rfl, fun h => h⟩
  | content ls =>
    refine ⟨foldl_srtLine_rtt _ _, fun _ => foldl_srtLine_rtt _ _⟩

/-- Witness for C10 at a concrete log tail and the start-up registry. -/
theorem C10_witness :
    (parse_srt_log (.content ["x srt://a error\n"]) initMetrics).1.rtt_ms = 0 ∧
    (parse_srt_log (.content ["x srt://a error\n"]) initMetrics).2.srt_rtt = 0 := by
  have h := C10_rtt_always_zero (.content ["x srt://a error\n"]) initMetrics
  exact ⟨h.1, h.2 rfl⟩

/-- The `inc(0)` of `get_services_status` leaves the restart counter of
every label unchanged. -/
theorem serviceStep_restarts (p : String → Bool) (r : String → ℕ)
    (acc : List (String × ServiceEntry) × Metrics) (svc t : String) :
    ((serviceStep p r acc svc).2).service_restarts t
      = acc.2.service_restarts t := by
  show (if t = svc then acc.2.service_restarts svc + 0
        else acc.2.service_restarts t) = acc.2.service_restarts t
  split_ifs with h
  · rw [h, Nat.add_zero]
  · rfl

/-- Claim C2 counterexample: one concrete `/status/services` call whose
JSON snapshot reports restart_count = 1 for `statime` while the
`service_restarts` counter it just "updated" (with `inc(0)`) still reads
0 — the metrics view and the JSON view disagree at that instant. -/
theorem C2_metrics_mirror_counterexample :
    (List.lookup "statime"
        (get_services_status (fun _ => true) (fun _ => 1) initMetrics).1) =
      some { running := true, restart_count := 1, status := "active" } ∧
    (get_services_status (fun _ => true) (fun _ => 1)
        initMetrics).2.service_restarts "statime" = 0 ∧
    (1 : ℕ) ≠ 0 := by
  refine ⟨?_, ?_, ?_⟩ <;> decide

/-- Claim C2 (amended): only part of the registry moves in lock-step
with the snapshot.  `get_services_status` sets each `service_up` gauge
to the probed running flag but leaves every `service_restarts` counter
unchanged (it only issues a zero increment), so that counter need not
equal the snapshot's restart_count; `parse_srt_log` on a readable log
sets the four SRT gauges to exactly the record it returns. -/
theorem C2_metrics_mirror_amended :
    ∀ (probe : String → Bool) (restarts : String → ℕ) (m : Metrics)
      (ls : List String),
      ((get_services_status probe restarts m).2.service_up "statime"
          = (if probe "statime" then 1 else 0)) ∧
      ((get_services_status probe restarts m).2.service_up "inferno"
          = (if probe "inferno" then 1 else 0)) ∧
      ((get_services_status probe restarts m).2.service_up "inferno-srt"
          = (if probe "inferno-srt" then 1 else 0)) ∧
      (∀ s, (get_services_status probe restarts m).2.service_restarts s
          = m.service_restarts s) ∧
      ((parse_srt_log (.content ls) m).2.srt_connected
          = (if (parse_srt_log (.content ls) m).1.connected then 1 else 0)) ∧
      ((parse_srt_log (.content ls) m).2.srt_bitrate
          = (parse_srt_log (.content ls) m).1.bitrate_kbps) ∧
      ((parse_srt_log (.content ls) m).2.srt_rtt
          = (parse_srt_log (.content ls) m).1.rtt_ms) ∧
      ((parse_srt_log (.content ls) m).2.srt_packet_loss
          = (parse_srt_log (.content ls) m).1.packet_loss_pct) := by
  intro probe restarts m ls
  refine ⟨rfl, rfl, rfl, ?_, rfl, rfl, rfl, rfl⟩
  intro s
  show ((serviceStep probe restarts
          (serviceStep probe restarts
            (serviceStep probe restarts ([], m) "statime") "inferno")
          "inferno-srt").2).service_restarts s = m.service_restarts s
  rw [serviceStep_restarts, serviceStep_restarts, serviceStep_restarts]

/-- The offset value the statime scan commits: the first line of the
walk whose lowered text contains `offset` and on which the extraction
pattern succeeds. -/
def firstOffsetIn : List String → Option Int
  | [] => none
  | line :: rest =>
    match (if containsPat offTrig (lowerL line.data) then searchOffset line.data
           else none) with
    | some off => some off
    | none => firstOffsetIn rest

theorem statimeScan_commit (ls : List String) (s : PtpStatus) (m : Metrics)
    (o : Int) (h : firstOffsetIn ls = some o) :
    (statimeScan ls s m).1.clock_offset_ns = o ∧
    (statimeScan ls s m).1.synchronized = decide (o.natAbs < 100000) := by
  induction ls generalizing s with
  | nil => simp [firstOffsetIn] at h
  | cons line rest ih =>
    rw [firstOffsetIn] at h
    rw [statimeScan]
    cases hc : (if containsPat offTrig (lowerL line.data) then searchOffset line.data
                else none) with
    | some off =>
      rw [hc] at h
      simp only [Option.some.injEq] at h
      subst h
      exact ⟨rfl, rfl⟩
    | none =>
      rw [hc] at h
      exact ih _ h

/-- Claim C4: whenever the PTP parser extracts a clock offset `o`, the
record it returns carries that offset and its derived synchronized flag
is true exactly when `|o| < 100000` nanoseconds. -/
theorem C4_synchronized_iff (ls : List String) (m : Metrics) (o : Int)
    (h : firstOffsetIn ((last100 ls).reverse) = some o) :
    (parse_statime_log (.content ls) m).1.clock_offset_ns = o ∧
    ((parse_statime_log (.content ls) m).1.synchronized = true ↔
      o.natAbs < 100000) := by
  have hc := statimeScan_commit ((last100 ls).reverse) ptpDefault m o h
  refine ⟨hc.1, ?_⟩
  rw [show (parse_statime_log (.content ls) m).1
        = (statimeScan ((last100 ls).reverse) ptpDefault m).1 from rfl, hc.2]
  simp

/-- Witness for C4 at the claim's two boundary offsets: 99999 is
synchronized, 100000 is not. -/
theorem C4_witness :
    ((parse_statime_log (.content ["ptp offset: 99999\n"]) initMetrics).1.clock_offset_ns
        = 99999 ∧
      ((parse_statime_log (.content ["ptp offset: 99999\n"]) initMetrics).1.synchronized
          = true ↔ (99999 : Int).natAbs < 100000)) ∧
    ((parse_statime_log (.content ["ptp offset: 100000\n"]) initMetrics).1.clock_offset_ns
        = 100000 ∧
      ((parse_statime_log (.content ["ptp offset: 100000\n"]) initMetrics).1.synchronized
          = true ↔ (100000 : Int).natAbs < 100000)) :=
  ⟨C4_synchronized_iff _ initMetrics 99999 (by decide),
   C4_synchronized_iff _ initMetrics 100000 (by decide)⟩

/-- Claim C7: a `POST /audio/output` whose device is not one of
hdmi/headphones/auto, or whose stereo pair exceeds
`ceil(rx_channels / 2) = (rx_channels + 1) // 2` computed from the live
main config, is answered with a 400-class error before anything is
persisted: the routing file write is never attempted and no `systemctl`
command is issued. -/
theorem C7_rejected_before_persist :
    ∀ (req : AudioOutputReq) (rx : ℕ) (writeOk ctlOk : Bool),
      ((["hdmi", "headphones", "auto"].contains req.device) = false ∨
        req.stereo_pair > (((rx + 1) / 2 : ℕ) : Int)) →
      (set_audio_output req rx writeOk ctlOk).result.is400 = true ∧
      (set_audio_output req rx writeOk ctlOk).writeAttempted = false ∧
      (set_audio_output req rx writeOk ctlOk).serviceCmd = none := by
  intro req rx wOk cOk h
  unfold set_audio_output
  rcases h with h | h
  · rw [h]
    exact ⟨rfl, rfl, rfl⟩
  · cases hd : (["hdmi", "headphones", "auto"].contains req.device) with
    | false => exact ⟨rfl, rfl, rfl⟩
    | true =>
      have h0 : (0 : Int) ≤ (((rx + 1) / 2 : ℕ) : Int) := Int.ofNat_nonneg _
      have h1 : ¬ (req.stereo_pair < 1) := by omega
      simp only [hd, Bool.not_true, Bool.false_eq_true, if_false, h1, if_neg]
      rw [if_pos h]
      exact ⟨rfl, rfl, rfl⟩

theorem srtBitrateStep_conn (line : String) (s : SrtStatus) :
    (srtBitrateStep line s).connected = s.connected := by
  unfold srtBitrateStep
  dsimp only
  repeat' split
  all_goals rfl

theorem srtLossStep_conn (line : String) (s : SrtStatus) :
    (srtLossStep line s).connected = s.connected := by
  unfold srtLossStep
  dsimp only
  repeat' split
  all_goals rfl

/-- A pattern whose characters are fixed by lowering is still a prefix
after the text is lowered. -/
theorem hasPref_map_lower (p : List Char) :
    ∀ l : List Char, (∀ c ∈ p, Char.toLower c = c) →
      hasPref p l = true → hasPref p (lowerL l) = true := by
  induction p with
  | nil => intro l _ _; rfl
  | cons a ps ih =>
    intro l hp h
    cases l with
    | nil => simp [hasPref] at h
    | cons c cs =>
      rw [hasPref, Bool.and_eq_true] at h
      obtain ⟨h1, h2⟩ := h
      have hac : a = c := by
        have := beq_iff_eq.mp h1
        exact this
      subst hac
      show (a == Char.toLower a && hasPref ps (lowerL cs)) = true
      rw [Bool.and_eq_true]
      constructor
      · rw [hp a (List.mem_cons_self a ps)]
        exact beq_self_eq_true a
      · exact ih cs (fun c hc => hp c (List.mem_cons_of_mem a hc)) h2

/-- A successful anchored URI match starts with the literal `srt://`. -/
theorem uriAt_pref (l : List Char) (u : String) (h : uriAt l = some u) :
    hasPref srtPat l = true := by
  unfold uriAt at h
  split at h
  · assumption
  · exact absurd h (by simp)

/-- A successful URI search implies the `'srt://' in line.lower()`
trigger of `parse_srt_log` holds. -/
theorem searchUri_trigger (l : List Char) (u : String)
    (h : searchUri l = some u) : containsPat srtPat (lowerL l) = true := by
  induction l with
  | nil => simp [searchUri] at h
  | cons c rest ih =>
    rw [searchUri] at h
    cases hu : uriAt (c :: rest) with
    | some v =>
      have hpre : hasPref srtPat (c :: rest) = true := uriAt_pref _ _ hu
      have hlow : hasPref srtPat (lowerL (c :: rest)) = true :=
        hasPref_map_lower srtPat (c :: rest) (by decide) hpre
      show (hasPref srtPat (lowerL (c :: rest))
              || containsPat srtPat (lowerL rest)) = true
      rw [hlow, Bool.true_or]
    | none =>
      rw [hu] at h
      have := ih h
      show (hasPref srtPat (lowerL (c :: rest))
              || containsPat srtPat (lowerL rest)) = true
      rw [this, Bool.or_true]

/-- Claim C8: on any line of the SRT tail from which a destination URI
is extracted, the `connected` flag is derived from that single line
alone: it is true unless the same line also contains an error or a
failure token (lower-cased substring check). -/
theorem C8_connected_per_line (line : String) (s : SrtStatus) (u : String)
    (h : searchUri line.data = some u) :
    (srtLine line s).connected =
      (!containsPat errTok (lowerL line.data)
        && !containsPat failTok (lowerL line.data)) := by
  have htrig := searchUri_trigger _ _ h
  have hconn : (srtConnStep line s).connected =
      (!containsPat errTok (lowerL line.data)
        && !containsPat failTok (lowerL line.data)) := by
    unfold srtConnStep
    dsimp only
    rw [htrig, if_pos rfl, h]
  calc (srtLine line s).connected
      = (srtConnStep line s).connected := by
        unfold srtLine
        rw [srtLossStep_conn, srtBitrateStep_conn]
    _ = _ := hconn

/-- Witness for C8: a line carrying both an `srt://` URI and the word
`error` resolves `connected` to false. -/
theorem C8_witness :
    (srtLine "Input srt://10.0.0.1:9000 error\n" srtDefault).connected = false := by
  rw [C8_connected_per_line "Input srt://10.0.0.1:9000 error\n" srtDefault
        "srt://10.0.0.1:9000" (by decide)]
  decide

/-! ### Decimal print/parse round trip for the routing config -/

theorem digit_char_digit (n : ℕ) (h : n < 10) :
    isDigitC (Char.ofNat (48 + n)) = true := by
  interval_cases n <;> decide

theorem digit_char_val (n : ℕ) (h : n < 10) :
    digitVal (Char.ofNat (48 + n)) = n := by
  interval_cases n <;> decide

theorem natToRev_all_digits (n : ℕ) : ∀ c ∈ natToRev n, isDigitC c = true := by
  induction n using Nat.strong_induction_on with
  | _ n ih =>
    rw [natToRev]
    split
    case isTrue h =>
      intro c hc
      rw [List.mem_singleton] at hc
      subst hc
      exact digit_char_digit n h
    case isFalse h =>
      intro c hc
      rcases List.mem_cons.mp hc with h2 | h2
      · subst h2
        exact digit_char_digit _ (Nat.mod_lt _ (by omega))
      · exact ih (n / 10) (Nat.div_lt_self (by omega) (by omega)) c h2

theorem natToRev_ne_nil (n : ℕ) : natToRev n ≠ [] := by
  rw [natToRev]
  split <;> simp

/-- Value of a least-significant-first digit list. -/
def revVal : List Char → ℕ
  | [] => 0
  | c :: cs => digitVal c + 10 * revVal cs

theorem revVal_natToRev (n : ℕ) : revVal (natToRev n) = n := by
  induction n using Nat.strong_induction_on with
  | _ n ih =>
    rw [natToRev]
    split
    case isTrue h =>
      rw [revVal, revVal, digit_char_val n h]
      omega
    case isFalse h =>
      rw [revVal, digit_char_val _ (Nat.mod_lt _ (by omega)),
        ih (n / 10) (Nat.div_lt_self (by omega) (by omega))]
      omega

theorem digitsToNat_reverse (l : List Char) : digitsToNat l.reverse = revVal l := by
  induction l with
  | nil => rfl
  | cons c cs ih =>
    rw [List.reverse_cons]
    show List.foldl (fun a ch => 10 * a + digitVal ch) 0 (cs.reverse ++ [c])
          = revVal (c :: cs)
    rw [List.foldl_append]
    show 10 * digitsToNat cs.reverse + digitVal c = revVal (c :: cs)
    rw [ih, revVal]
    omega

theorem natToStrL_mem (n : ℕ) : ∀ c ∈ natToStrL n, isDigitC c = true := by
  intro c hc
  exact natToRev_all_digits n c (List.mem_reverse.mp hc)

theorem natToStrL_ne_nil (n : ℕ) : natToStrL n ≠ [] := by
  unfold natToStrL
  simp [natToRev_ne_nil n]

theorem intToStrL_mem (n : Int) :
    ∀ c ∈ intToStrL n, c = '-' ∨ isDigitC c = true := by
  intro c hc
  unfold intToStrL at hc
  split at hc
  · rcases List.mem_cons.mp hc with h | h
    · exact Or.inl h
    · exact Or.inr (natToStrL_mem _ c h)
  · exact Or.inr (natToStrL_mem _ c hc)

theorem intToStrL_ne_nil (n : Int) : intToStrL n ≠ [] := by
  unfold intToStrL
  split
  · simp
  · exact natToStrL_ne_nil _

/-- A minus sign or digit is not `'='`, not `'"'`, and not whitespace. -/
theorem numchar_facts (c : Char) (h : c = '-' ∨ isDigitC c = true) :
    (c != '=') = true ∧ (c == '"') = false ∧ isPySpace c = false := by
  rcases h with rfl | h
  · exact ⟨by decide, by decide, by decide⟩
  · have h1 : 48 ≤ c.toNat ∧ c.toNat ≤ 57 := by
      unfold isDigitC at h
      rw [Bool.and_eq_true, decide_eq_true_iff, decide_eq_true_iff] at h
      exact h
    refine ⟨?_, ?_, ?_⟩
    · rw [bne_iff_ne]
      intro he
      rw [he] at h1
      exact absurd h1.2 (by decide)
    · rw [beq_eq_false_iff_ne]
      intro he
      rw [he] at h1
      exact absurd h1.1 (by decide)
    · cases hsp : isPySpace c with
      | false => rfl
      | true =>
        exfalso
        unfold isPySpace at hsp
        simp only [Bool.or_eq_true, decide_eq_true_iff] at hsp
        rcases hsp with ((((h2 | h2) | h2) | h2) | h2) | h2 <;>
          subst h2 <;>
          exact absurd h1.1 (by decide)

theorem strToNatD_natToStrL (n : ℕ) : strToNatD (natToStrL n) = some n := by
  have hne := natToStrL_ne_nil n
  have hall : (natToStrL n).all isDigitC = true := by
    rw [List.all_eq_true]
    exact natToStrL_mem n
  unfold strToNatD
  rw [if_neg (by simp [List.isEmpty_iff, hne]), if_pos hall]
  unfold natToStrL
  rw [digitsToNat_reverse, revVal_natToRev]

theorem strToInt_intToStrL (n : Int) : strToInt (intToStrL n) = some n := by
  unfold intToStrL
  split
  case isTrue h =>
    rw [strToInt, if_pos (by decide), strToNatD_natToStrL, Option.map_some']
    congr 1
    omega
  case isFalse h =>
    obtain ⟨c, cs, hl⟩ : ∃ c cs, natToStrL n.toNat = c :: cs := by
      cases hx : natToStrL n.toNat with
      | nil => exact absurd hx (natToStrL_ne_nil _)
      | cons c cs => exact ⟨c, cs, rfl⟩
    have hd : isDigitC c = true :=
      natToStrL_mem n.toNat c (by rw [hl]; exact List.mem_cons_self _ _)
    have hne2 : ¬ ((c == '-') = true) := by
      intro hcm
      rw [beq_iff_eq.mp hcm] at hd
      exact absurd hd (by decide)
    rw [hl, strToInt, if_neg hne2, ← hl, strToNatD_natToStrL, Option.map_some']
    congr 1
    omega

theorem dropWhile_cons_true (p : Char → Bool) (a : Char) (l : List Char)
    (h : p a = true) : List.dropWhile p (a :: l) = List.dropWhile p l := by
  rw [List.dropWhile_cons, if_pos h]

theorem dropWhile_cons_false (p : Char → Bool) (a : Char) (l : List Char)
    (h : p a = false) : List.dropWhile p (a :: l) = a :: l := by
  rw [List.dropWhile_cons, if_neg (by rw [h]; exact Bool.false_ne_true)]

theorem dropWhile_all_false (p : Char → Bool) (l : List Char)
    (h : ∀ c ∈ l, p c = false) : List.dropWhile p l = l := by
  cases l with
  | nil => rfl
  | cons a l2 => exact dropWhile_cons_false _ _ _ (h a (List.mem_cons_self _ _))

theorem takeWhile_all_append (p : Char → Bool) (v w : List Char)
    (hv : ∀ c ∈ v, p c = true) (hw : List.takeWhile p w = w) :
    List.takeWhile p (v ++ w) = v ++ w := by
  induction v with
  | nil => simpa using hw
  | cons a vs ih =>
    rw [List.cons_append, List.takeWhile_cons,
      if_pos (hv a (List.mem_cons_self _ _)),
      ih (fun c hc => hv c (List.mem_cons_of_mem a hc))]

/-- Stripping a written `KEY="value"` line removes exactly the trailing
newline, provided the key starts with a non-space character. -/
theorem pyStrip_kvLine (c0 : Char) (ks v : List Char)
    (hc : isPySpace c0 = false) :
    pyStrip (kvLine (c0 :: ks) v) = (c0 :: ks) ++ '"' :: (v ++ ['"']) := by
  unfold pyStrip kvLine
  rw [show ((c0 :: ks) ++ '"' :: (v ++ ['"', '\n']) : List Char)
        = c0 :: (ks ++ '"' :: (v ++ ['"', '\n'])) from rfl]
  rw [dropWhile_cons_false _ _ _ hc]
  have e2 : (c0 :: (ks ++ '"' :: (v ++ ['"', '\n']))).reverse
      = '\n' :: '"' :: (v.reverse ++ ('"' :: (ks.reverse ++ [c0]))) := by
    simp
  rw [e2, dropWhile_cons_true _ _ _ (by decide),
    dropWhile_cons_false _ _ _ (by decide)]
  simp

/-- Python `str.strip('"')` recovers the value from `"value"` when the value is
nonempty and quote-free. -/
theorem stripQ_wrap (c0 : Char) (vs : List Char)
    (hq : ∀ c ∈ c0 :: vs, (c == '"') = false) :
    stripQ ('"' :: ((c0 :: vs) ++ ['"'])) = c0 :: vs := by
  unfold stripQ
  rw [dropWhile_cons_true (fun c => c == '"') '"' _ (by decide)]
  rw [show ((c0 :: vs) ++ ['"'] : List Char) = c0 :: (vs ++ ['"']) from rfl]
  rw [dropWhile_cons_false (fun c => c == '"') c0 _ (hq c0 (List.mem_cons_self _ _))]
  have e : (c0 :: (vs ++ ['"'])).reverse = '"' :: (vs.reverse ++ [c0]) := by
    simp
  rw [e, dropWhile_cons_true (fun c => c == '"') '"' _ (by decide),
    dropWhile_all_false (fun c => c == '"') _ ?mem]
  case mem =>
    intro c hcm
    rcases List.mem_append.mp hcm with h | h
    · exact hq c (List.mem_cons_of_mem c0 (List.mem_reverse.mp h))
    · rw [List.mem_singleton] at h
      subst h
      exact hq c (List.mem_cons_self _ _)
  simp

theorem pyStrip_en (v : List Char) :
    pyStrip (kvLine enabledKey v) = enabledKey ++ '"' :: (v ++ ['"']) :=
  pyStrip_kvLine 'E' "NABLED=".data v (by decide)

theorem pyStrip_dev (v : List Char) :
    pyStrip (kvLine deviceKey v) = deviceKey ++ '"' :: (v ++ ['"']) :=
  pyStrip_kvLine 'D' "EVICE=".data v (by decide)

theorem pyStrip_sp (v : List Char) :
    pyStrip (kvLine spKey v) = spKey ++ '"' :: (v ++ ['"']) :=
  pyStrip_kvLine 'S' "TEREO_PAIR=".data v (by decide)

theorem pyStrip_cl (v : List Char) :
    pyStrip (kvLine clKey v) = clKey ++ '"' :: (v ++ ['"']) :=
  pyStrip_kvLine 'C' "HANNEL_L=".data v (by decide)

theorem pyStrip_cr (v : List Char) :
    pyStrip (kvLine crKey v) = crKey ++ '"' :: (v ++ ['"']) :=
  pyStrip_kvLine 'C' "HANNEL_R=".data v (by decide)

theorem pyStrip_rx (v : List Char) :
    pyStrip (kvLine rxKey v) = rxKey ++ '"' :: (v ++ ['"']) :=
  pyStrip_kvLine 'R' "X_CHANNELS=".data v (by decide)

theorem process_comment1 (c : RoutingConfig) :
    processLine ['#', ' ', 'H', 'a', 'r', 'd', 'w', 'a', 'r', 'e', ' ', 'a', 'u',
      'd', 'i', 'o', ' ', 'o', 'u', 't', 'p', 'u', 't', ' ', 'c', 'o', 'n', 'f',
      'i', 'g', 'u', 'r', 'a', 't', 'i', 'o', 'n', '\n'] c = some c := rfl

theorem process_comment2 (c : RoutingConfig) :
    processLine ['#', ' ', 'T', 'h', 'i', 's', ' ', 'f', 'i', 'l', 'e', ' ', 'c',
      'a', 'n', ' ', 'b', 'e', ' ', 'm', 'o', 'd', 'i', 'f', 'i', 'e', 'd', ' ',
      'v', 'i', 'a', ' ', 'A', 'P', 'I', ' ', 'o', 'r', ' ', 'm', 'a', 'n', 'u',
      'a', 'l', 'l', 'y', '\n'] c = some c := rfl

theorem process_enabled (b : Bool) (c : RoutingConfig) :
    processLine (kvLine enabledKey
        (if b then ['t', 'r', 'u', 'e'] else ['f', 'a', 'l', 's', 'e'])) c
      = some { c with enabled := b } := by
  cases b <;> rfl

theorem process_device_hdmi (c : RoutingConfig) :
    processLine (kvLine deviceKey ['h', 'd', 'm', 'i']) c
      = some { c with device := "hdmi" } := rfl

theorem process_device_hp (c : RoutingConfig) :
    processLine (kvLine deviceKey
        ['h', 'e', 'a', 'd', 'p', 'h', 'o', 'n', 'e', 's']) c
      = some { c with device := "headphones" } := rfl

theorem process_device_auto (c : RoutingConfig) :
    processLine (kvLine deviceKey ['a', 'u', 't', 'o']) c
      = some { c with device := "auto" } := rfl

theorem process_sp (n : Int) (c : RoutingConfig) :
    processLine (kvLine spKey (intToStrL n)) c
      = some { c with stereo_pair := n } := by
  obtain ⟨c0, vs, hveq⟩ : ∃ c0 vs, intToStrL n = c0 :: vs := by
    cases hx : intToStrL n with
    | nil => exact absurd hx (intToStrL_ne_nil n)
    | cons a l => exact ⟨a, l, rfl⟩
  have hv : ∀ ch ∈ intToStrL n, (ch != '=') = true :=
    fun ch hc => (numchar_facts ch (intToStrL_mem n ch hc)).1
  have hq : ∀ ch ∈ intToStrL n, (ch == '"') = false :=
    fun ch hc => (numchar_facts ch (intToStrL_mem n ch hc)).2.1
  have d1 : ¬ (hasPref enabledKey (spKey ++ '"' :: (intToStrL n ++ ['"'])) = true) :=
    fun hx => Bool.false_ne_true hx
  have d2 : ¬ (hasPref deviceKey (spKey ++ '"' :: (intToStrL n ++ ['"'])) = true) :=
    fun hx => Bool.false_ne_true hx
  have d3 : hasPref spKey (spKey ++ '"' :: (intToStrL n ++ ['"'])) = true := rfl
  have hA : afterEq (spKey ++ '"' :: (intToStrL n ++ ['"']))
      = '"' :: (intToStrL n ++ ['"']) := by
    show '"' :: List.takeWhile (fun ch => ch != '=') (intToStrL n ++ ['"'])
          = '"' :: (intToStrL n ++ ['"'])
    rw [takeWhile_all_append (fun ch => ch != '=') (intToStrL n) ['"'] hv rfl]
  unfold processLine
  dsimp only
  rw [pyStrip_sp (intToStrL n), if_neg d1, if_neg d2, if_pos d3, hA, hveq,
    stripQ_wrap c0 vs (by rw [← hveq]; exact hq), ← hveq, strToInt_intToStrL]

theorem process_cl (n : Int) (c : RoutingConfig) :
    processLine (kvLine clKey (intToStrL n)) c
      = some { c with channel_l := n } := by
  obtain ⟨c0, vs, hveq⟩ : ∃ c0 vs, intToStrL n = c0 :: vs := by
    cases hx : intToStrL n with
    | nil => exact absurd hx (intToStrL_ne_nil n)
    | cons a l => exact ⟨a, l, rfl⟩
  have hv : ∀ ch ∈ intToStrL n, (ch != '=') = true :=
    fun ch hc => (numchar_facts ch (intToStrL_mem n ch hc)).1
  have hq : ∀ ch ∈ intToStrL n, (ch == '"') = false :=
    fun ch hc => (numchar_facts ch (intToStrL_mem n ch hc)).2.1
  have d1 : ¬ (hasPref enabledKey (clKey ++ '"' :: (intToStrL n ++ ['"'])) = true) :=
    fun hx => Bool.false_ne_true hx
  have d2 : ¬ (hasPref deviceKey (clKey ++ '"' :: (intToStrL n ++ ['"'])) = true) :=
    fun hx => Bool.false_ne_true hx
  have d3 : ¬ (hasPref spKey (clKey ++ '"' :: (intToStrL n ++ ['"'])) = true) :=
    fun hx => Bool.false_ne_true hx
  have d4 : hasPref clKey (clKey ++ '"' :: (intToStrL n ++ ['"'])) = true := rfl
  have hA : afterEq (clKey ++ '"' :: (intToStrL n ++ ['"']))
      = '"' :: (intToStrL n ++ ['"']) := by
    show '"' :: List.takeWhile (fun ch => ch != '=') (intToStrL n ++ ['"'])
          = '"' :: (intToStrL n ++ ['"'])
    rw [takeWhile_all_append (fun ch => ch != '=') (intToStrL n) ['"'] hv rfl]
  unfold processLine
  dsimp only
  rw [pyStrip_cl (intToStrL n), if_neg d1, if_neg d2, if_neg d3, if_pos d4, hA,
    hveq, stripQ_wrap c0 vs (by rw [← hveq]; exact hq), ← hveq,
    strToInt_intToStrL]

theorem process_cr (n : Int) (c : RoutingConfig) :
    processLine (kvLine crKey (intToStrL n)) c
      = some { c with channel_r := n } := by
  obtain ⟨c0, vs, hveq⟩ : ∃ c0 vs, intToStrL n = c0 :: vs := by
    cases hx : intToStrL n with
    | nil => exact absurd hx (intToStrL_ne_nil n)
    | cons a l => exact ⟨a, l, rfl⟩
  have hv : ∀ ch ∈ intToStrL n, (ch != '=') = true :=
    fun ch hc => (numchar_facts ch (intToStrL_mem n ch hc)).1
  have hq : ∀ ch ∈ intToStrL n, (ch == '"') = false :=
    fun ch hc => (numchar_facts ch (intToStrL_mem n ch hc)).2.1
  have d1 : ¬ (hasPref enabledKey (crKey ++ '"' :: (intToStrL n ++ ['"'])) = true) :=
    fun hx => Bool.false_ne_true hx
  have d2 : ¬ (hasPref deviceKey (crKey ++ '"' :: (intToStrL n ++ ['"'])) = true) :=
    fun hx => Bool.false_ne_true hx
  have d3 : ¬ (hasPref spKey (crKey ++ '"' :: (intToStrL n ++ ['"'])) = true) :=
    fun hx => Bool.false_ne_true hx
  have d4 : ¬ (hasPref clKey (crKey ++ '"' :: (intToStrL n ++ ['"'])) = true) :=
    fun hx => Bool.false_ne_true hx
  have d5 : hasPref crKey (crKey ++ '"' :: (intToStrL n ++ ['"'])) = true := rfl
  have hA : afterEq (crKey ++ '"' :: (intToStrL n ++ ['"']))
      = '"' :: (intToStrL n ++ ['"']) := by
    show '"' :: List.takeWhile (fun ch => ch != '=') (intToStrL n ++ ['"'])
          = '"' :: (intToStrL n ++ ['"'])
    rw [takeWhile_all_append (fun ch => ch != '=') (intToStrL n) ['"'] hv rfl]
  unfold processLine
  dsimp only
  rw [pyStrip_cr (intToStrL n), if_neg d1, if_neg d2, if_neg d3, if_neg d4,
    if_pos d5, hA, hveq, stripQ_wrap c0 vs (by rw [← hveq]; exact hq), ← hveq,
    strToInt_intToStrL]

theorem process_rx (n : Int) (c : RoutingConfig) :
    processLine (kvLine rxKey (intToStrL n)) c
      = some { c with rx_channels := n } := by
  obtain ⟨c0, vs, hveq⟩ : ∃ c0 vs, intToStrL n = c0 :: vs := by
    cases hx : intToStrL n with
    | nil => exact absurd hx (intToStrL_ne_nil n)
    | cons a l => exact ⟨a, l, rfl⟩
  have hv : ∀ ch ∈ intToStrL n, (ch != '=') = true :=
    fun ch hc => (numchar_facts ch (intToStrL_mem n ch hc)).1
  have hq : ∀ ch ∈ intToStrL n, (ch == '"') = false :=
    fun ch hc => (numchar_facts ch (intToStrL_mem n ch hc)).2.1
  have d1 : ¬ (hasPref enabledKey (rxKey ++ '"' :: (intToStrL n ++ ['"'])) = true) :=
    fun hx => Bool.false_ne_true hx
  have d2 : ¬ (hasPref deviceKey (rxKey ++ '"' :: (intToStrL n ++ ['"'])) = true) :=
    fun hx => Bool.false_ne_true hx
  have d3 : ¬ (hasPref spKey (rxKey ++ '"' :: (intToStrL n ++ ['"'])) = true) :=
    fun hx => Bool.false_ne_true hx
  have d4 : ¬ (hasPref clKey (rxKey ++ '"' :: (intToStrL n ++ ['"'])) = true) :=
    fun hx => Bool.false_ne_true hx
  have d5 : ¬ (hasPref crKey (rxKey ++ '"' :: (intToStrL n ++ ['"'])) = true) :=
    fun hx => Bool.false_ne_true hx
  have d6 : hasPref rxKey (rxKey ++ '"' :: (intToStrL n ++ ['"'])) = true := rfl
  have hA : afterEq (rxKey ++ '"' :: (intToStrL n ++ ['"']))
      = '"' :: (intToStrL n ++ ['"']) := by
    show '"' :: List.takeWhile (fun ch => ch != '=') (intToStrL n ++ ['"'])
          = '"' :: (intToStrL n ++ ['"'])
    rw [takeWhile_all_append (fun ch => ch != '=') (intToStrL n) ['"'] hv rfl]
  unfold processLine
  dsimp only
  rw [pyStrip_rx (intToStrL n), if_neg d1, if_neg d2, if_neg d3, if_neg d4,
    if_neg d5, if_pos d6, hA, hveq,
    stripQ_wrap c0 vs (by rw [← hveq]; exact hq), ← hveq, strToInt_intToStrL]

/-- Claim C6: writing a routing configuration with stereo_pair at least 1
and reading it back yields channel_l = 2 times (stereo_pair minus 1),
channel_r = channel_l + 1, and preserves enabled, device and the pair
(and the recorded rx_channels). -/
theorem C6_routing_roundtrip (e : Bool) (d : String) (p rx : Int)
    (hd : d ∈ (["hdmi", "headphones", "auto"] : List String)) (hp : 1 ≤ p) :
    read_audio_output_config
        (some (write_audio_output_config
          { enabled := e, device := d, stereo_pair := p, rx_channels := rx })) =
      { enabled := e, device := d, stereo_pair := p,
        channel_l := 2 * (p - 1), channel_r := 2 * (p - 1) + 1,
        rx_channels := rx } := by
  have hd3 : d = "hdmi" ∨ d = "headphones" ∨ d = "auto" := by simpa using hd
  rw [show (2 * (p - 1) : Int) = (p - 1) * 2 from by ring]
  unfold write_audio_output_config read_audio_output_config
  rcases hd3 with rfl | rfl | rfl <;>
    simp only [readLoop, process_comment1, process_comment2, process_enabled,
      process_device_hdmi, process_device_hp, process_device_auto, process_sp,
      process_cl, process_cr, process_rx]

/-- Witness for C6 at a concrete valid configuration. -/
theorem C6_witness :
    read_audio_output_config
        (some (write_audio_output_config
          { enabled := true, device := "hdmi", stereo_pair := 3, rx_channels := 8 })) =
      { enabled := true, device := "hdmi", stereo_pair := 3,
        channel_l := 4, channel_r := 5, rx_channels := 8 } :=
  C6_routing_roundtrip true "hdmi" 3 8 (by decide) (by decide)

/-- Witness for C7: stereo pair 3 with 4 receive channels (max pair 2)
is rejected with a 400 and neither writes the file nor touches the
service. -/
theorem C7_witness :
    (set_audio_output ⟨true, "hdmi", 3⟩ 4 true true).result.is400 = true ∧
    (set_audio_output ⟨true, "hdmi", 3⟩ 4 true true).writeAttempted = false ∧
    (set_audio_output ⟨true, "hdmi", 3⟩ 4 true true).serviceCmd = none :=
  C7_rejected_before_persist ⟨true, "hdmi", 3⟩ 4 true true (Or.inr (by decide))
